import Mathlib

/-!
Verification development for the UID batching/coalescing engine of the
gopanosapi repository (src/apicommon.go, lines 515-760).

The mutable `UID` struct of the source is embedded as the pure state type
`UIDState`; the Go maps `ip2uTransactions : map[string]userPendingEntries`
and `groups : map[string]map[string]struct{}` are embedded as association
lists with unique keys (the operations only ever insert a key after a
failed lookup, so key uniqueness is an invariant, proved below where it is
needed).  Each mutation method of the source becomes a function
`UIDState → ... → UIDState × Bool`, the `Bool` recording whether the call
raised the flusher wake signal through `incChange`.  The two background
goroutines (`flushData`, `tickRcvr`) and `Close` are embedded as a small
step relation on a system state `Sys` further below.
-/

namespace GoPanOsApi

set_option maxRecDepth 40000

/-- Source constant `UIDVERSION` (src/apicommon.go line 523). -/
def UIDVERSION : String := "2.0"

/-- Source constant `UIDTYPE` (src/apicommon.go line 524). -/
def UIDTYPE : String := "update"

/-- Source constant `MAXCHANGES` (src/apicommon.go line 525). -/
def MAXCHANGES : Int := 100

/-- Source struct `userPendingEntries` (lines 560-563). -/
structure UserPendingEntries where
  isLogin : Bool
  username : String
  timeout : String
deriving DecidableEq, Repr

/-- Source struct `loginEntry` (lines 538-543): attributes name, ip,
timeout (timeout carries `omitempty`). -/
structure LoginEntry where
  Name : String
  Ip : String
  Timeout : String
deriving DecidableEq, Repr

/-- Source struct `logoutEntry` (lines 545-549). -/
structure LogoutEntry where
  Name : String
  Ip : String
deriving DecidableEq, Repr

/-- Source struct `groupMemberEntry` (lines 527-530). -/
structure GroupMemberEntry where
  Name : String
deriving DecidableEq, Repr

/-- Source struct `groupEntry` (lines 532-536); `Members` carries
`omitempty`. -/
structure GroupEntry where
  Name : String
  Members : List GroupMemberEntry
deriving DecidableEq, Repr

/-- Source struct `payloadElement` (lines 551-558).  The Go field `Type`
is named `MsgType` here because `Type` is a Lean keyword; all three entry
lists carry `omitempty` in the source XML tags. -/
structure PayloadElement where
  Version : String
  MsgType : String
  LoginEntries : List LoginEntry
  LogoutEntries : List LogoutEntry
  GroupEntries : List GroupEntry
deriving DecidableEq, Repr

/-- The data fields of the source struct `UID` (lines 565-578) that the
ledger operations read or write: the last-flushed envelope `payloadE`, the
pending-mutation map `ip2uTransactions`, the group map `groups` and the
net change counter `cumChanges`.  Go maps are embedded as association
lists. -/
structure UIDState where
  payloadE : PayloadElement
  ip2uTransactions : List (String × UserPendingEntries)
  groups : List (String × List String)
  cumChanges : Int
deriving DecidableEq, Repr

/-- Association-list lookup: the embedding of reading a Go map (`m[k]`).
Returns the value of the first binding of `k`. -/
def lookupK (k : String) : List (String × α) → Option α
  | [] => none
  | (k2, v) :: rest => if k2 = k then some v else lookupK k rest

/-- Association-list deletion: the embedding of `delete(m, k)`.  Removes
the first binding of `k` (the only one, under key uniqueness). -/
def eraseK (k : String) : List (String × α) → List (String × α)
  | [] => []
  | (k2, v) :: rest => if k2 = k then rest else (k2, v) :: eraseK k rest

/-- Association-list update of an existing key: the embedding of writing
through a Go map (`m[k] = v` when `k` is already present). -/
def updateK (k : String) (v : α) : List (String × α) → List (String × α)
  | [] => []
  | (k2, v2) :: rest => if k2 = k then (k, v) :: rest else (k2, v2) :: updateK k v rest

/-- Source method `UID.incChange` (lines 686-693): add `increment` to the
counter and raise the flusher wake signal exactly when the new counter
value equals `MAXCHANGES`.  The returned `Bool` records whether
`flusher.Signal()` was called. -/
def incChange (st : UIDState) (increment : Int) : UIDState × Bool :=
  let st2 := { st with cumChanges := st.cumChanges + increment }
  (st2, decide (st2.cumChanges = MAXCHANGES))

/-- Source method `UID.AddLogin` (lines 622-633): presence-based toggle
on the pending-mutation map keyed by `ipaddr`. -/
def AddLogin (st : UIDState) (username ipaddr timeout : String) : UIDState × Bool :=
  match lookupK ipaddr st.ip2uTransactions with
  | some _ =>
      incChange { st with ip2uTransactions := eraseK ipaddr st.ip2uTransactions } (-1)
  | none =>
      incChange
        { st with ip2uTransactions :=
            (ipaddr, ⟨true, username, timeout⟩) :: st.ip2uTransactions } 1

/-- Source method `UID.AddLogout` (lines 635-646): same toggle, inserting
a logout-kind entry (timeout stored as the empty string). -/
def AddLogout (st : UIDState) (username ipaddr : String) : UIDState × Bool :=
  match lookupK ipaddr st.ip2uTransactions with
  | some _ =>
      incChange { st with ip2uTransactions := eraseK ipaddr st.ip2uTransactions } (-1)
  | none =>
      incChange
        { st with ip2uTransactions :=
            (ipaddr, ⟨false, username, ""⟩) :: st.ip2uTransactions } 1

/-- Source method `UID.AddGroupMember` (lines 648-663): inserting an
already-present member is a no-op; otherwise the member is added (the
group being created if absent) and the counter incremented. -/
def AddGroupMember (st : UIDState) (group member : String) : UIDState × Bool :=
  match lookupK group st.groups with
  | some members =>
      if member ∈ members then (st, false)
      else incChange { st with groups := updateK group (member :: members) st.groups } 1
  | none =>
      incChange { st with groups := (group, [member]) :: st.groups } 1

/-- Source method `UID.RemoveGroupMember` (lines 665-676): removing a
present member increments the counter; absent group or member is a
no-op. -/
def RemoveGroupMember (st : UIDState) (group member : String) : UIDState × Bool :=
  match lookupK group st.groups with
  | some members =>
      if member ∈ members then
        incChange { st with groups := updateK group (members.erase member) st.groups } 1
      else (st, false)
  | none => (st, false)

/-- Source method `UID.gGarbage` (lines 678-684): delete every group
whose member set is empty. -/
def gGarbage (gs : List (String × List String)) : List (String × List String) :=
  gs.filter (fun p => !p.2.isEmpty)

/-- One drain cycle of the source goroutine `UID.flushData`
(lines 725-751, the region executed under `dataLock` after a wake): build
the login/logout entry lists from the pending-mutation map and the group
entry list from the group map (before garbage collection), store them in
`payloadE`, garbage-collect empty groups, then reset the pending map and
the counter. -/
def flushData (st : UIDState) : UIDState :=
  let logins := st.ip2uTransactions.filterMap (fun p =>
    if p.2.isLogin then some ⟨p.2.username, p.1, p.2.timeout⟩ else none)
  let logouts : List LogoutEntry := st.ip2uTransactions.filterMap (fun p =>
    if p.2.isLogin then none else some ⟨p.2.username, p.1⟩)
  let gents := st.groups.map (fun g => GroupEntry.mk g.1 (g.2.map (fun m => ⟨m⟩)))
  { payloadE := { st.payloadE with
      LoginEntries := logins, LogoutEntries := logouts, GroupEntries := gents },
    ip2uTransactions := [],
    groups := gGarbage st.groups,
    cumChanges := 0 }

/-- The ledger/envelope state established by the success path of
`UID.Init` (lines 580-600): version and type set, empty maps, zero
counter. -/
def initUID : UIDState :=
  { payloadE := { Version := UIDVERSION, MsgType := UIDTYPE,
                  LoginEntries := [], LogoutEntries := [], GroupEntries := [] },
    ip2uTransactions := [],
    groups := [],
    cumChanges := 0 }

/-- The four caller-facing mutation operations of the ledger. -/
inductive Op where
  | addLogin (username ipaddr timeout : String)
  | addLogout (username ipaddr : String)
  | addGroupMember (group member : String)
  | removeGroupMember (group member : String)
deriving DecidableEq, Repr

/-- Dispatch of a mutation operation; the `Bool` records whether the
operation raised the flusher wake signal. -/
def applyOp (st : UIDState) : Op → UIDState × Bool
  | Op.addLogin u ip t => AddLogin st u ip t
  | Op.addLogout u ip => AddLogout st u ip
  | Op.addGroupMember g m => AddGroupMember st g m
  | Op.removeGroupMember g m => RemoveGroupMember st g m

/-- Run a list of mutation operations, keeping only the states. -/
def runOps (st : UIDState) (ops : List Op) : UIDState :=
  ops.foldl (fun s op => (applyOp s op).1) st

/-- The signal flags produced by a list of mutation operations, in call
order. -/
def runOpsSignals (st : UIDState) (ops : List Op) : List Bool :=
  (ops.foldl (fun (p : UIDState × List Bool) op =>
    ((applyOp p.1 op).1, p.2 ++ [(applyOp p.1 op).2])) (st, [])).2

/-!
XML serialization.  Go's `encoding/xml` on the structs above is
deterministic; the functions below reproduce it: attributes are escaped
with `xml.EscapeText`'s character references, a field tagged `omitempty`
is dropped when its value is empty, the shared parent element `payload`
is emitted once and only when at least one of the three entry lists is
non-empty, and elements are written as open/close pairs
(`<entry ...></entry>`, never self-closed).
-/

/-- Escaping applied by Go `encoding/xml` to attribute and character
data: the five XML special characters plus tab, newline and carriage
return become character references. -/
def xmlEscapeChar (c : Char) : String :=
  if c = Char.ofNat 34 then "&#34;"
  else if c = Char.ofNat 39 then "&#39;"
  else if c = Char.ofNat 38 then "&amp;"
  else if c = Char.ofNat 60 then "&lt;"
  else if c = Char.ofNat 62 then "&gt;"
  else if c = Char.ofNat 9 then "&#x9;"
  else if c = Char.ofNat 10 then "&#xA;"
  else if c = Char.ofNat 13 then "&#xD;"
  else String.singleton c

/-- Escape a whole string. -/
def xmlEscape (s : String) : String :=
  String.join (s.data.map xmlEscapeChar)

/-- Render one XML attribute, leading space included. -/
def attrXml (n v : String) : String :=
  " " ++ n ++ "=\"" ++ xmlEscape v ++ "\""

/-- Serialization of a `loginEntry`; the `timeout` attribute is omitted
when empty (`omitempty`). -/
def loginEntryXml (e : LoginEntry) : String :=
  "<entry" ++ attrXml "name" e.Name ++ attrXml "ip" e.Ip ++
    (if e.Timeout = "" then "" else attrXml "timeout" e.Timeout) ++ "></entry>"

/-- Serialization of a `logoutEntry`. -/
def logoutEntryXml (e : LogoutEntry) : String :=
  "<entry" ++ attrXml "name" e.Name ++ attrXml "ip" e.Ip ++ "></entry>"

/-- Serialization of a `groupMemberEntry`. -/
def groupMemberEntryXml (m : GroupMemberEntry) : String :=
  "<entry" ++ attrXml "name" m.Name ++ "></entry>"

/-- Serialization of a `groupEntry`; the `members` element is omitted
when the member list is empty (`omitempty`). -/
def groupEntryXml (g : GroupEntry) : String :=
  "<entry" ++ attrXml "name" g.Name ++ ">" ++
    (if g.Members.isEmpty then ""
     else "<members>" ++ String.join (g.Members.map groupMemberEntryXml) ++ "</members>") ++
    "</entry>"

/-- Serialization of a full `payloadElement`, the value produced by
`xml.Marshal(&uid.payloadE)` in the source: each of the three containers
is omitted when its list is empty, and the shared `payload` parent is
omitted when all three are empty. -/
def xmlMarshalPayload (p : PayloadElement) : String :=
  "<uid-message><version>" ++ xmlEscape p.Version ++ "</version><type>" ++
    xmlEscape p.MsgType ++ "</type>" ++
    (if p.LoginEntries.isEmpty && p.LogoutEntries.isEmpty && p.GroupEntries.isEmpty then ""
     else
       "<payload>" ++
         (if p.LoginEntries.isEmpty then ""
          else "<login>" ++ String.join (p.LoginEntries.map loginEntryXml) ++ "</login>") ++
         (if p.LogoutEntries.isEmpty then ""
          else "<logout>" ++ String.join (p.LogoutEntries.map logoutEntryXml) ++ "</logout>") ++
         (if p.GroupEntries.isEmpty then ""
          else "<groups>" ++ String.join (p.GroupEntries.map groupEntryXml) ++ "</groups>") ++
       "</payload>") ++
    "</uid-message>"

/-- Source method `UID.Marshall` (lines 758-760): serialize the stored
envelope `payloadE` (the error of `xml.Marshal` is always nil on these
fixed struct types, so the result is just the byte string). -/
def Marshall (st : UIDState) : String :=
  xmlMarshalPayload st.payloadE

/-- Modelled from the spec: the "current (unflushed) envelope state" that
`SerializeCurrentBatch` is described as marshalling — the batch envelope
(protocol version, message kind constant) describing the login/logout
entries and group memberships currently pending in the ledger.  This
definition follows the spec's words and is compared against the source's
`Marshall`/`flushData` in the theorems for claim C4. -/
def specCurrentEnvelope (st : UIDState) : PayloadElement :=
  { Version := UIDVERSION,
    MsgType := UIDTYPE,
    LoginEntries := st.ip2uTransactions.filterMap (fun p =>
      if p.2.isLogin then some ⟨p.2.username, p.1, p.2.timeout⟩ else none),
    LogoutEntries := st.ip2uTransactions.filterMap (fun p =>
      if p.2.isLogin then none else some ⟨p.2.username, p.1⟩),
    GroupEntries := st.groups.map (fun g => GroupEntry.mk g.1 (g.2.map (fun m => ⟨m⟩))) }

/-!
System model for the concurrent behaviour: the flush goroutine
`UID.flushData` (lines 715-756), the per-tick body of `UID.tickRcvr`
(lines 695-713), the steps of `UID.Close` (lines 610-620) and mutation
calls are embedded as atomic events interleaved over a system state.  The
condition variable `uid.flusher` is a `sync.Cond` whose `Signal` wakes
the (sole) waiter if it is currently parked in `Wait` and is otherwise a
no-op — a signal raised with no waiter is lost.  `lostSignals` is a ghost
counter of such lost signals, used only to state properties.
-/

/-- Program counter of the `flushData` goroutine: at the top-of-loop
`select`, parked inside `flusher.Wait()`, draining the ledger under
`dataLock`, marshalling/submitting outside the lock, or returned. -/
inductive FlushPC where
  | atSelect
  | parked
  | draining
  | submitting
  | done
deriving DecidableEq, Repr

/-- System state: the shared `UID` data, the `flusherQuit` channel's
closed flag, the flush goroutine's program counter, the log of payload
strings passed to `device.Uid` (the transport submission), and the ghost
count of wake signals that were raised while no waiter was parked. -/
structure Sys where
  uid : UIDState
  flusherQuitClosed : Bool
  pc : FlushPC
  submissions : List String
  lostSignals : Nat
deriving DecidableEq, Repr

/-- Semantics of `uid.flusher.Signal()`: wake the flush goroutine if it
is parked in `Wait`; otherwise the signal is lost (ghost-counted). -/
def signalFlusher (s : Sys) : Sys :=
  if s.pc = FlushPC.parked then { s with pc := FlushPC.draining }
  else { s with lostSignals := s.lostSignals + 1 }

/-- Atomic interleaved events: a caller mutation (which may signal via
`incChange`), a timer tick (the body of `tickRcvr`'s ticker case: signal
iff the counter is positive), the two externally visible steps of
`Close` (closing `flusherQuit`, then the explicit `Signal`), and one
scheduler step of the `flushData` goroutine. -/
inductive Event where
  | mutate (op : Op)
  | tick
  | closeQuit
  | closeSignal
  | flushTaskStep
deriving DecidableEq, Repr

/-- One atomic event of the system. -/
def stepEvent (s : Sys) : Event → Sys
  | Event.mutate op =>
      let r := applyOp s.uid op
      if r.2 then signalFlusher { s with uid := r.1 } else { s with uid := r.1 }
  | Event.tick =>
      if s.uid.cumChanges > 0 then signalFlusher s else s
  | Event.closeQuit => { s with flusherQuitClosed := true }
  | Event.closeSignal => signalFlusher s
  | Event.flushTaskStep =>
      match s.pc with
      | FlushPC.atSelect =>
          if s.flusherQuitClosed then { s with pc := FlushPC.done }
          else { s with pc := FlushPC.parked }
      | FlushPC.parked => s
      | FlushPC.draining =>
          { s with uid := flushData s.uid, pc := FlushPC.submitting }
      | FlushPC.submitting =>
          { s with submissions := s.submissions ++ [Marshall s.uid], pc := FlushPC.atSelect }
      | FlushPC.done => s

/-- Run a list of events. -/
def runSys (s : Sys) (es : List Event) : Sys :=
  es.foldl stepEvent s

/-- System state right after a successful `Init`: fresh ledger, quit
channel open, flush goroutine about to enter its loop, nothing submitted. -/
def initSys : Sys :=
  { uid := initUID,
    flusherQuitClosed := false,
    pc := FlushPC.atSelect,
    submissions := [],
    lostSignals := 0 }

/-!
Ghost instrumentation for the counter-consistency invariant: a ledger
step is one of the four mutation operations or a flush drain, and the
ghost component counts the group-membership changes for which the source
called `incChange(1)` since the last drain.
-/

/-- Whether `AddGroupMember group member` takes a branch that calls
`incChange` (the member is not already present). -/
def countedGroupAdd (st : UIDState) (group member : String) : Bool :=
  match lookupK group st.groups with
  | some members => decide (member ∉ members)
  | none => true

/-- Whether `RemoveGroupMember group member` takes the branch that calls
`incChange` (the member is present). -/
def countedGroupRemove (st : UIDState) (group member : String) : Bool :=
  match lookupK group st.groups with
  | some members => decide (member ∈ members)
  | none => false

/-- A step of the ledger: one of the four mutation operations, or the
flush task's drain. -/
inductive LedgerStep where
  | op (o : Op)
  | drain
deriving DecidableEq, Repr

/-- Number of counted group-membership changes an operation contributes
(0 or 1). -/
def groupDelta (st : UIDState) : Op → Nat
  | Op.addGroupMember g m => if countedGroupAdd st g m then 1 else 0
  | Op.removeGroupMember g m => if countedGroupRemove st g m then 1 else 0
  | _ => 0

/-- One ledger step with the ghost count of counted group changes since
the last drain. -/
def applyStepG (p : UIDState × Nat) : LedgerStep → UIDState × Nat
  | LedgerStep.op o => ((applyOp p.1 o).1, p.2 + groupDelta p.1 o)
  | LedgerStep.drain => (flushData p.1, 0)

/-- All states reachable from engine start, with the ghost count. -/
def runStepsG (steps : List LedgerStep) : UIDState × Nat :=
  steps.foldl applyStepG (initUID, 0)

/-- The counter-consistency invariant: unique pending keys, and the
counter equals the pending-map cardinality plus the ghost count of
counted group changes. -/
def LedgerInv (p : UIDState × Nat) : Prop :=
  (p.1.ip2uTransactions.map Prod.fst).Nodup ∧
  p.1.cumChanges = p.1.ip2uTransactions.length + (p.2 : Int)

/-!
Concrete inputs used by the per-claim theorems below.
-/

/-- A pending login on a fresh ledger, no flush yet (claim C4). -/
def stC4 : UIDState := (AddLogin initUID "alice" "10.0.0.1" "60").1

/-- A ledger whose only group has just been drained to zero members: add
a member, flush, then remove the member (claim C3). -/
def stC3 : UIDState :=
  (RemoveGroupMember (flushData (AddGroupMember initUID "g1" "alice").1) "g1" "alice").1

/-- 101 single-step logins for pairwise distinct IP addresses (claim C6). -/
def c6Ops : List Op :=
  (List.range 101).map (fun i => Op.addLogin ("u" ++ toString i) ("ip" ++ toString i) "")

/-- The ledger reached by the 101 distinct logins: counter 101 (claim C6). -/
def stC6 : UIDState := runOps initUID c6Ops

/-- A reachable ledger whose group g1 already contains m1 and whose
counter is zero: add the member, then flush (claim C9). -/
def stC9 : UIDState := flushData (AddGroupMember initUID "g1" "m1").1

/-- A ledger state with g1 containing m1, reached by one AddGroupMember
call (claim C9 witness). -/
def stC9w : UIDState := (AddGroupMember initUID "g1" "m1").1

/-- A ledger with one pending entry and counter 101 (claim C10 witness). -/
def stC10 : UIDState :=
  { payloadE := initUID.payloadE,
    ip2uTransactions := [("ip9", ⟨true, "u9", "60"⟩)],
    groups := [],
    cumChanges := 101 }

/-- A ledger with one pending login, one non-empty group and one empty
group (claim C7 witness). -/
def stC7 : UIDState :=
  { payloadE := initUID.payloadE,
    ip2uTransactions := [("ip1", ⟨true, "a", ""⟩)],
    groups := [("g1", ["a"]), ("g2", [])],
    cumChanges := 3 }

/-- System state at the moment Close is invoked in the C2 interleaving:
the flush task has parked and one login is pending (claim C2). -/
def c2AtClose : Sys :=
  runSys initSys [Event.flushTaskStep, Event.mutate (Op.addLogin "alice" "10.0.0.1" "60")]

/-- The two externally visible steps performed by `UID.Close` on the
flush task (closing `flusherQuit`, then `flusher.Signal()`), followed by
the flush task being scheduled until it returns (claim C2). -/
def closeEvents : List Event :=
  [Event.closeQuit, Event.closeSignal, Event.flushTaskStep, Event.flushTaskStep,
   Event.flushTaskStep]

/-- Final system state of the C2 interleaving. -/
def c2Final : Sys := runSys c2AtClose closeEvents

/-- The C5 interleaving: the flush task parks, a login wakes it through a
tick, a second login arrives while it is mid-cycle, and the tick signal
raised during that busy window hits no waiter (claim C5). -/
def c5Trace : List Event :=
  [Event.flushTaskStep, Event.mutate (Op.addLogin "u1" "ip1" ""), Event.tick,
   Event.flushTaskStep, Event.mutate (Op.addLogin "u2" "ip2" ""), Event.tick,
   Event.flushTaskStep, Event.flushTaskStep]

/-- Final system state of the C5 interleaving. -/
def c5Final : Sys := runSys initSys c5Trace


/-!
Helper lemmas about the association-list embedding of Go maps.
-/

theorem lookupK_some_length {α : Type} (k : String) (v : α) :
    ∀ l : List (String × α), lookupK k l = some v →
      l.length = (eraseK k l).length + 1 := by
  intro l
  induction l with
  | nil => intro h; simp [lookupK] at h
  | cons hd tl ih =>
      obtain ⟨k2, v2⟩ := hd
      intro h
      by_cases hk : k2 = k
      · simp [eraseK, hk]
      · simp only [lookupK, if_neg hk] at h
        simp [eraseK, hk, ih h]

theorem eraseK_sublist {α : Type} (k : String) :
    ∀ l : List (String × α), (eraseK k l).Sublist l := by
  intro l
  induction l with
  | nil => simp [eraseK]
  | cons hd tl ih =>
      obtain ⟨k2, v2⟩ := hd
      by_cases hk : k2 = k
      · simp only [eraseK, if_pos hk]
        exact List.sublist_cons_self _ _
      · simp only [eraseK, if_neg hk]
        exact List.Sublist.cons₂ _ ih

theorem lookupK_none_forall {α : Type} (k : String) :
    ∀ l : List (String × α), lookupK k l = none → ∀ p ∈ l, p.1 ≠ k := by
  intro l
  induction l with
  | nil => intro _ p hp; simp at hp
  | cons hd tl ih =>
      obtain ⟨k2, v2⟩ := hd
      intro h p hp
      by_cases hk : k2 = k
      · simp [lookupK, hk] at h
      · simp only [lookupK, if_neg hk] at h
        rcases List.mem_cons.mp hp with h1 | h2
        · subst h1; simpa using hk
        · exact ih h p h2

theorem lookupK_some_mem {α : Type} (k : String) (v : α) :
    ∀ l : List (String × α), lookupK k l = some v → (k, v) ∈ l := by
  intro l
  induction l with
  | nil => intro h; simp [lookupK] at h
  | cons hd tl ih =>
      obtain ⟨k2, v2⟩ := hd
      intro h
      by_cases hk : k2 = k
      · simp only [lookupK, if_pos hk] at h
        subst hk
        injection h with h
        subst h
        exact List.mem_cons_self _ _
      · simp only [lookupK, if_neg hk] at h
        exact List.mem_cons_of_mem _ (ih h)

theorem lookupK_updateK_self {α : Type} (k : String) (v w : α) :
    ∀ l : List (String × α), lookupK k l = some w →
      lookupK k (updateK k v l) = some v := by
  intro l
  induction l with
  | nil => intro h; simp [lookupK] at h
  | cons hd tl ih =>
      obtain ⟨k2, v2⟩ := hd
      intro h
      by_cases hk : k2 = k
      · simp [updateK, hk, lookupK]
      · simp only [lookupK, if_neg hk] at h
        simp [updateK, hk, lookupK, ih h]

theorem lookupK_filter_keep {α : Type} (k : String) (v : α) (q : String × α → Bool) :
    ∀ l : List (String × α), lookupK k l = some v → q (k, v) = true →
      lookupK k (l.filter q) = some v := by
  intro l
  induction l with
  | nil => intro h _; simp [lookupK] at h
  | cons hd tl ih =>
      obtain ⟨k2, v2⟩ := hd
      intro h hq
      by_cases hk : k2 = k
      · subst hk
        simp only [lookupK, if_pos rfl] at h
        injection h with h
        subst h
        simp [List.filter_cons, hq, lookupK]
      · simp only [lookupK, if_neg hk] at h
        by_cases hq2 : q (k2, v2) = true
        · simp [List.filter_cons, hq2, lookupK, hk, ih h hq]
        · simp only [Bool.not_eq_true] at hq2
          simp [List.filter_cons, hq2, ih h hq]

theorem lookupK_eq_none_of_forall {α : Type} (k : String) :
    ∀ l : List (String × α), (∀ p ∈ l, p.1 ≠ k) → lookupK k l = none := by
  intro l
  induction l with
  | nil => intro _; simp [lookupK]
  | cons hd tl ih =>
      obtain ⟨k2, v2⟩ := hd
      intro hout
      have hk2 : k2 ≠ k := hout (k2, v2) (List.mem_cons_self _ _)
      simp only [lookupK, if_neg hk2]
      exact ih (fun p hp => hout p (List.mem_cons_of_mem _ hp))

theorem lookupK_filter_none {α : Type} (k : String) (v : α) (q : String × α → Bool) :
    ∀ l : List (String × α), (l.map Prod.fst).Nodup →
      lookupK k l = some v → q (k, v) = false →
      lookupK k (l.filter q) = none := by
  intro l
  induction l with
  | nil => intro _ h _; simp [lookupK] at h
  | cons hd tl ih =>
      obtain ⟨k2, v2⟩ := hd
      intro hnd h hq
      simp only [List.map_cons, List.nodup_cons] at hnd
      by_cases hk : k2 = k
      · subst hk
        simp only [lookupK, if_pos rfl] at h
        injection h with h
        subst h
        simp only [List.filter_cons, hq, Bool.false_eq_true, if_neg Bool.false_ne_true]
        -- k2 is not a key of tl, hence not a key of its filtration
        exact lookupK_eq_none_of_forall _ _ (fun p hp hpk =>
          hnd.1 (List.mem_map.mpr ⟨p, List.mem_of_mem_filter hp, hpk⟩))
      · simp only [lookupK, if_neg hk] at h
        by_cases hq2 : q (k2, v2) = true
        · simp [List.filter_cons, hq2, lookupK, hk, ih hnd.2 h hq]
        · simp only [Bool.not_eq_true] at hq2
          simp [List.filter_cons, hq2, ih hnd.2 h hq]

theorem eraseK_keys_nodup {α : Type} (k : String) (l : List (String × α))
    (h : (l.map Prod.fst).Nodup) : ((eraseK k l).map Prod.fst).Nodup :=
  List.Nodup.sublist (List.Sublist.map Prod.fst (eraseK_sublist k l)) h

theorem addGroupMember_frame (st : UIDState) (g m : String) :
    (AddGroupMember st g m).1.ip2uTransactions = st.ip2uTransactions ∧
    (AddGroupMember st g m).1.cumChanges =
      st.cumChanges + (if countedGroupAdd st g m then 1 else 0) := by
  cases h : lookupK g st.groups with
  | none => simp [AddGroupMember, countedGroupAdd, incChange, h]
  | some members =>
      by_cases hm : m ∈ members
      · simp [AddGroupMember, countedGroupAdd, incChange, h, hm]
      · simp [AddGroupMember, countedGroupAdd, incChange, h, hm]

theorem removeGroupMember_frame (st : UIDState) (g m : String) :
    (RemoveGroupMember st g m).1.ip2uTransactions = st.ip2uTransactions ∧
    (RemoveGroupMember st g m).1.cumChanges =
      st.cumChanges + (if countedGroupRemove st g m then 1 else 0) := by
  cases h : lookupK g st.groups with
  | none => simp [RemoveGroupMember, countedGroupRemove, incChange, h]
  | some members =>
      by_cases hm : m ∈ members
      · simp [RemoveGroupMember, countedGroupRemove, incChange, h, hm]
      · simp [RemoveGroupMember, countedGroupRemove, incChange, h, hm]

theorem nodup_keys_cons_of_lookup_none {α : Type}
    (ip : String) (e : α) (l : List (String × α))
    (hnd : (l.map Prod.fst).Nodup) (h4 : lookupK ip l = none) :
    (((ip, e) :: l).map Prod.fst).Nodup := by
  have hnotin : ip ∉ l.map Prod.fst := by
    intro hmem
    obtain ⟨p, hp, hpk⟩ := List.mem_map.mp hmem
    exact lookupK_none_forall ip l h4 p hp hpk
  simpa using List.nodup_cons.mpr ⟨hnotin, hnd⟩

theorem ledgerInv_step (p : UIDState × Nat) (s : LedgerStep)
    (h : LedgerInv p) : LedgerInv (applyStepG p s) := by
  obtain ⟨hnd, heq⟩ := h
  cases s with
  | drain =>
      constructor
      · simp [applyStepG, flushData]
      · simp [applyStepG, flushData]
  | op o =>
      cases o with
      | addLogin u ip t =>
          cases h4 : lookupK ip p.1.ip2uTransactions with
          | some e =>
              have hlen := lookupK_some_length ip e p.1.ip2uTransactions h4
              refine ⟨?_, ?_⟩
              · simp only [applyStepG, applyOp, AddLogin, h4, incChange]
                exact eraseK_keys_nodup ip p.1.ip2uTransactions hnd
              · simp only [applyStepG, applyOp, AddLogin, h4, incChange, groupDelta]
                rw [heq]
                omega
          | none =>
              refine ⟨?_, ?_⟩
              · simp only [applyStepG, applyOp, AddLogin, h4, incChange]
                exact nodup_keys_cons_of_lookup_none ip _ _ hnd h4
              · simp only [applyStepG, applyOp, AddLogin, h4, incChange, groupDelta]
                rw [heq]
                simp only [List.length_cons]
                omega
      | addLogout u ip =>
          cases h4 : lookupK ip p.1.ip2uTransactions with
          | some e =>
              have hlen := lookupK_some_length ip e p.1.ip2uTransactions h4
              refine ⟨?_, ?_⟩
              · simp only [applyStepG, applyOp, AddLogout, h4, incChange]
                exact eraseK_keys_nodup ip p.1.ip2uTransactions hnd
              · simp only [applyStepG, applyOp, AddLogout, h4, incChange, groupDelta]
                rw [heq]
                omega
          | none =>
              refine ⟨?_, ?_⟩
              · simp only [applyStepG, applyOp, AddLogout, h4, incChange]
                exact nodup_keys_cons_of_lookup_none ip _ _ hnd h4
              · simp only [applyStepG, applyOp, AddLogout, h4, incChange, groupDelta]
                rw [heq]
                simp only [List.length_cons]
                omega
      | addGroupMember g m =>
          obtain ⟨hf1, hf2⟩ := addGroupMember_frame p.1 g m
          constructor
          · simpa [applyStepG, applyOp, hf1] using hnd
          · simp only [applyStepG, applyOp, hf1, hf2, groupDelta, heq]
            by_cases hc : countedGroupAdd p.1 g m
            · simp [hc]; omega
            · simp [hc]
      | removeGroupMember g m =>
          obtain ⟨hf1, hf2⟩ := removeGroupMember_frame p.1 g m
          constructor
          · simpa [applyStepG, applyOp, hf1] using hnd
          · simp only [applyStepG, applyOp, hf1, hf2, groupDelta, heq]
            by_cases hc : countedGroupRemove p.1 g m
            · simp [hc]; omega
            · simp [hc]

theorem ledgerInv_run (steps : List LedgerStep) :
    ∀ p : UIDState × Nat, LedgerInv p → LedgerInv (steps.foldl applyStepG p) := by
  induction steps with
  | nil => intro p h; exact h
  | cons s rest ih => intro p h; exact ih (applyStepG p s) (ledgerInv_step p s h)

/-!
Per-claim theorems.
-/

/-- C1: Toggle-cancel.  For every ledger state, if `AddLogin` or
`AddLogout` is called for an `ip` that already has a pending mutation of
either kind, the existing entry is removed and the counter decremented
by one; if `ip` has no pending mutation, a new entry of the requested
kind is inserted and the counter incremented by one.  In particular,
when the first `AddLogin` creates the pending entry for `ip`, a second
mutation call of either kind on the same `ip` leaves no pending entry
for that `ip` and restores the counter to its pre-first-call value. -/
theorem C1_toggle_cancel (st : UIDState) (u u2 ip t t2 : String) :
    (∀ e, lookupK ip st.ip2uTransactions = some e →
       ((AddLogin st u ip t).1.ip2uTransactions = eraseK ip st.ip2uTransactions ∧
        (AddLogin st u ip t).1.cumChanges = st.cumChanges - 1) ∧
       ((AddLogout st u ip).1.ip2uTransactions = eraseK ip st.ip2uTransactions ∧
        (AddLogout st u ip).1.cumChanges = st.cumChanges - 1)) ∧
    (lookupK ip st.ip2uTransactions = none →
       (lookupK ip (AddLogin st u ip t).1.ip2uTransactions = some ⟨true, u, t⟩ ∧
        (AddLogin st u ip t).1.cumChanges = st.cumChanges + 1) ∧
       (lookupK ip (AddLogout st u ip).1.ip2uTransactions = some ⟨false, u, ""⟩ ∧
        (AddLogout st u ip).1.cumChanges = st.cumChanges + 1) ∧
       (lookupK ip (AddLogin (AddLogin st u ip t).1 u2 ip t2).1.ip2uTransactions = none ∧
        (AddLogin (AddLogin st u ip t).1 u2 ip t2).1.cumChanges = st.cumChanges) ∧
       (lookupK ip (AddLogout (AddLogin st u ip t).1 u2 ip).1.ip2uTransactions = none ∧
        (AddLogout (AddLogin st u ip t).1 u2 ip).1.cumChanges = st.cumChanges)) := by
  constructor
  · intro e he
    simp [AddLogin, AddLogout, incChange, he, sub_eq_add_neg]
  · intro he
    simp [AddLogin, AddLogout, incChange, he, lookupK, eraseK]

/-- C1 witness: the toggle-cancel theorem applied at a fresh ledger and
concrete identities. -/
theorem C1_toggle_cancel_witness :
    lookupK "10.0.0.1"
      (AddLogout (AddLogin initUID "alice" "10.0.0.1" "60").1 "bob"
        "10.0.0.1").1.ip2uTransactions = none ∧
    (AddLogout (AddLogin initUID "alice" "10.0.0.1" "60").1 "bob"
      "10.0.0.1").1.cumChanges = initUID.cumChanges :=
  ((C1_toggle_cancel initUID "alice" "bob" "10.0.0.1" "60" "x").2 (by decide)).2.2.2

/-- C8: counter consistency.  In every state reachable from engine start
by any sequence of the four mutation operations and flush drains, the
pending-mutation keys are unique and the counter equals the cardinality
of the pending-mutation map plus the number of counted group-membership
changes since the last drain (the ghost component of `runStepsG`); in
particular the map cardinality never exceeds the counter and the counter
is never negative. -/
theorem C8_counter_invariant (steps : List LedgerStep) :
    ((runStepsG steps).1.ip2uTransactions.map Prod.fst).Nodup ∧
    (runStepsG steps).1.cumChanges =
      ((runStepsG steps).1.ip2uTransactions.length : Int) + ((runStepsG steps).2 : Int) ∧
    ((runStepsG steps).1.ip2uTransactions.length : Int) ≤ (runStepsG steps).1.cumChanges ∧
    0 ≤ (runStepsG steps).1.cumChanges := by
  have h : LedgerInv (runStepsG steps) :=
    ledgerInv_run steps (initUID, 0) ⟨by simp [initUID], by simp [initUID]⟩
  obtain ⟨h1, h2⟩ := h
  exact ⟨h1, h2, by rw [h2]; omega, by rw [h2]; omega⟩

/-- C10: the wake signal is raised by `AddLogin`/`AddLogout` if and only
if the counter after the ±1 step equals exactly 100, regardless of the
step's sign; in particular a toggle-cancel decrement that brings the
counter from 101 down to 100 (removing an entry) also raises the wake
signal. -/
theorem C10_trigger_both_directions (st : UIDState) (u ip t : String) :
    ((AddLogin st u ip t).2 = true ↔ (AddLogin st u ip t).1.cumChanges = MAXCHANGES) ∧
    ((AddLogout st u ip).2 = true ↔ (AddLogout st u ip).1.cumChanges = MAXCHANGES) ∧
    (lookupK ip st.ip2uTransactions ≠ none → st.cumChanges = 101 →
       (AddLogin st u ip t).2 = true ∧
       (AddLogin st u ip t).1.cumChanges = 100 ∧
       (AddLogin st u ip t).1.ip2uTransactions.length + 1 = st.ip2uTransactions.length ∧
       (AddLogout st u ip).2 = true) := by
  refine ⟨?_, ?_, ?_⟩
  · cases he : lookupK ip st.ip2uTransactions <;> simp [AddLogin, incChange, he]
  · cases he : lookupK ip st.ip2uTransactions <;> simp [AddLogout, incChange, he]
  · intro hne h101
    cases he : lookupK ip st.ip2uTransactions with
    | none => exact absurd he hne
    | some e =>
        have hlen := lookupK_some_length ip e st.ip2uTransactions he
        refine ⟨?_, ?_, ?_, ?_⟩
        · simp [AddLogin, incChange, he, h101, MAXCHANGES]
        · simp [AddLogin, incChange, he, h101]
        · simp only [AddLogin, he, incChange]
          omega
        · simp [AddLogout, incChange, he, h101, MAXCHANGES]

/-- C10 witness: from a ledger with one pending entry and counter 101, a
toggle-cancel call raises the wake signal while removing the entry. -/
theorem C10_trigger_both_directions_witness :
    (AddLogin stC10 "x" "ip9" "5").2 = true ∧
    (AddLogin stC10 "x" "ip9" "5").1.cumChanges = 100 ∧
    (AddLogin stC10 "x" "ip9" "5").1.ip2uTransactions.length + 1 =
      stC10.ip2uTransactions.length ∧
    (AddLogout stC10 "x" "ip9").2 = true :=
  (C10_trigger_both_directions stC10 "x" "ip9" "5").2.2 (by decide) (by decide)

/-- C9 counterexample: from the reachable state `stC9`, in which group
g1 already contains m1 and the counter is zero, two consecutive
`AddGroupMember g1 m1` calls produce zero net counter increment, not
one — so the claim's "exactly one net counter increment from any state"
is false. -/
theorem C9_counterexample :
    (AddGroupMember (AddGroupMember stC9 "g1" "m1").1 "g1" "m1").1.cumChanges =
      stC9.cumChanges ∧
    ¬ ((AddGroupMember (AddGroupMember stC9 "g1" "m1").1 "g1" "m1").1.cumChanges =
        stC9.cumChanges + 1) := by
  decide

/-- C9 amended: if group `g` already contains `m` then
`AddGroupMember g m` changes nothing and raises no signal; and two
consecutive `AddGroupMember g m` calls from any state in which `m` is
not already a member of `g` yield exactly one membership of `m` in `g`
and exactly one net counter increment (from a state where `m` is already
a member, both calls are no-ops and the net increment is zero). -/
theorem C9_amended_idempotence (st : UIDState) (g m : String) :
    (∀ ms, lookupK g st.groups = some ms → m ∈ ms →
       (AddGroupMember st g m).1 = st ∧ (AddGroupMember st g m).2 = false) ∧
    ((∀ ms, lookupK g st.groups = some ms → m ∉ ms) →
       (∃ ms2,
          lookupK g (AddGroupMember (AddGroupMember st g m).1 g m).1.groups = some ms2 ∧
          ms2.count m = 1) ∧
       (AddGroupMember (AddGroupMember st g m).1 g m).1.cumChanges = st.cumChanges + 1) := by
  constructor
  · intro ms h hm
    simp [AddGroupMember, h, hm]
  · intro hnot
    cases h : lookupK g st.groups with
    | none =>
        refine ⟨⟨[m], ?_, ?_⟩, ?_⟩
        · simp [AddGroupMember, h, incChange, lookupK]
        · simp
        · simp [AddGroupMember, h, incChange, lookupK]
    | some ms =>
        have hm := hnot ms h
        have hupd : lookupK g (updateK g (m :: ms) st.groups) = some (m :: ms) :=
          lookupK_updateK_self g (m :: ms) ms st.groups h
        refine ⟨⟨m :: ms, ?_, ?_⟩, ?_⟩
        · simp [AddGroupMember, h, hm, incChange, hupd]
        · simp [List.count_cons_self, List.count_eq_zero.mpr hm]
        · simp [AddGroupMember, h, hm, incChange, hupd]

/-- C9 amended witness: the no-op case at a reachable state whose group
already holds the member, and the fresh case on an empty ledger. -/
theorem C9_amended_idempotence_witness :
    ((AddGroupMember stC9w "g1" "m1").1 = stC9w ∧
     (AddGroupMember stC9w "g1" "m1").2 = false) ∧
    ((∃ ms2,
        lookupK "g2"
          (AddGroupMember (AddGroupMember initUID "g2" "m2").1 "g2" "m2").1.groups =
            some ms2 ∧
        ms2.count "m2" = 1) ∧
     (AddGroupMember (AddGroupMember initUID "g2" "m2").1 "g2" "m2").1.cumChanges =
       initUID.cumChanges + 1) :=
  ⟨(C9_amended_idempotence stC9w "g1" "m1").1 ["m1"] (by decide) (by decide),
   (C9_amended_idempotence initUID "g2" "m2").2 (fun ms h => nomatch h)⟩

/-- C7: flush frame condition.  Every flush cycle resets the
pending-mutation map to empty and the counter to zero, and leaves the
group map unchanged except for the removal of empty groups: a non-empty
group's membership persists unchanged across the flush, and (under
unique group keys) a group that was empty is gone afterwards. -/
theorem C7_flush_frame (st : UIDState) (g : String) (ms : List String) :
    (flushData st).ip2uTransactions = [] ∧
    (flushData st).cumChanges = 0 ∧
    (flushData st).groups = st.groups.filter (fun p => !p.2.isEmpty) ∧
    (lookupK g st.groups = some ms → ms ≠ [] →
       lookupK g (flushData st).groups = some ms) ∧
    ((st.groups.map Prod.fst).Nodup → lookupK g st.groups = some [] →
       lookupK g (flushData st).groups = none) := by
  refine ⟨by simp [flushData], by simp [flushData], by simp [flushData, gGarbage], ?_, ?_⟩
  · intro h hne
    have hq : (fun p : String × List String => !p.2.isEmpty) (g, ms) = true := by
      simpa using hne
    have hk := lookupK_filter_keep g ms (fun p => !p.2.isEmpty) st.groups h hq
    simpa [flushData, gGarbage] using hk
  · intro hnd h
    have hq : (fun p : String × List String => !p.2.isEmpty) (g, ([] : List String)) = false := by
      simp
    have hk := lookupK_filter_none g [] (fun p => !p.2.isEmpty) st.groups hnd h hq
    simpa [flushData, gGarbage] using hk

/-- C7 witness: flushing a ledger holding one pending login, one
non-empty group and one empty group. -/
theorem C7_flush_frame_witness :
    (flushData stC7).ip2uTransactions = [] ∧
    (flushData stC7).cumChanges = 0 ∧
    lookupK "g1" (flushData stC7).groups = some ["a"] ∧
    lookupK "g2" (flushData stC7).groups = none :=
  ⟨(C7_flush_frame stC7 "g1" ["a"]).1,
   (C7_flush_frame stC7 "g1" ["a"]).2.1,
   (C7_flush_frame stC7 "g1" ["a"]).2.2.2.1 (by decide) (by decide),
   (C7_flush_frame stC7 "g2" []).2.2.2.2 (by decide) (by decide)⟩

/-- C6 counterexample: after 101 single-step increments (logins on
distinct IPs) the counter is 101; the next call is a toggle-cancel that
removes an entry and decrements the counter 101 → 100, yet it raises the
wake signal — so "raised exactly when an increment makes the counter
become 100" is false for this mutation sequence. -/
theorem C6_counterexample :
    stC6.cumChanges = 101 ∧
    stC6.ip2uTransactions.length = 101 ∧
    (applyOp stC6 (Op.addLogin "x" "ip0" "z")).1.cumChanges = 100 ∧
    (applyOp stC6 (Op.addLogin "x" "ip0" "z")).1.ip2uTransactions.length = 100 ∧
    (applyOp stC6 (Op.addLogin "x" "ip0" "z")).2 = true := by
  decide

/-- C6 amended: the wake signal is raised exactly when a ±1 mutation
step makes the counter become equal to the threshold 100 — whether the
step increments (99 → 100) or decrements (101 → 100); and a timer tick
observed when the counter is 0 raises no wake signal and changes
nothing, so the timer path at counter 0 issues no transport
submission. -/
theorem C6_amended_threshold (st : UIDState) (u ip t : String) (s : Sys) :
    ((AddLogin st u ip t).2 = true ↔ (AddLogin st u ip t).1.cumChanges = MAXCHANGES) ∧
    ((AddLogout st u ip).2 = true ↔ (AddLogout st u ip).1.cumChanges = MAXCHANGES) ∧
    (s.uid.cumChanges = 0 → stepEvent s Event.tick = s) := by
  refine ⟨?_, ?_, ?_⟩
  · cases he : lookupK ip st.ip2uTransactions <;> simp [AddLogin, incChange, he]
  · cases he : lookupK ip st.ip2uTransactions <;> simp [AddLogout, incChange, he]
  · intro h
    simp [stepEvent, h]

/-- C6 amended witness: the trigger equivalence at a fresh ledger, and a
tick at counter 0 leaving the whole system (submission log included)
unchanged. -/
theorem C6_amended_threshold_witness :
    ((AddLogin initUID "u" "ip" "").2 = true ↔
       (AddLogin initUID "u" "ip" "").1.cumChanges = MAXCHANGES) ∧
    stepEvent initSys Event.tick = initSys :=
  ⟨(C6_amended_threshold initUID "u" "ip" "" initSys).1,
   (C6_amended_threshold initUID "u" "ip" "" initSys).2.2 rfl⟩

/-- C3 counterexample: `stC3`'s group g1 has just been drained to zero
members; the envelope emitted by the very flush that garbage-collects it
still contains a group entry named g1 (with no members), and the
diagnostic serialization right after that flush still references g1 —
only the internal map purge holds. -/
theorem C3_counterexample :
    lookupK "g1" stC3.groups = some [] ∧
    (flushData stC3).payloadE.GroupEntries = [GroupEntry.mk "g1" []] ∧
    lookupK "g1" (flushData stC3).groups = none ∧
    Marshall (flushData stC3) =
      "<uid-message><version>2.0</version><type>update</type><payload><groups><entry name=\"g1\"></entry></groups></payload></uid-message>" := by
  decide

/-- C3 amended: a group that is empty at the start of a flush cycle is
deleted from the internal group map by that flush, so the next flush's
envelope omits it; but the envelope emitted by the flush at which the
group is empty still contains a member-less group entry for it. -/
theorem C3_amended_group_gc (st : UIDState) (g : String) :
    ((st.groups.map Prod.fst).Nodup → lookupK g st.groups = some [] →
       GroupEntry.mk g [] ∈ (flushData st).payloadE.GroupEntries ∧
       lookupK g (flushData st).groups = none) ∧
    (lookupK g st.groups = none →
       ∀ ge ∈ (flushData st).payloadE.GroupEntries, ge.Name ≠ g) := by
  constructor
  · intro hnd h
    constructor
    · have hmem := lookupK_some_mem g [] st.groups h
      simp only [flushData]
      exact List.mem_map.mpr ⟨(g, []), hmem, rfl⟩
    · have hq : (fun p : String × List String => !p.2.isEmpty)
          (g, ([] : List String)) = false := by simp
      have hk := lookupK_filter_none g [] (fun p => !p.2.isEmpty) st.groups hnd h hq
      simpa [flushData, gGarbage] using hk
  · intro h ge hge
    simp only [flushData] at hge
    obtain ⟨p, hp, hpe⟩ := List.mem_map.mp hge
    have hne := lookupK_none_forall g st.groups h p hp
    rw [← hpe]
    simpa using hne

/-- C3 amended witness: at `stC3`, the flush keeps a member-less g1
entry in the emitted envelope while purging g1 from the map, and the
following flush's envelope no longer mentions g1. -/
theorem C3_amended_group_gc_witness :
    (GroupEntry.mk "g1" [] ∈ (flushData stC3).payloadE.GroupEntries ∧
     lookupK "g1" (flushData stC3).groups = none) ∧
    (∀ ge ∈ (flushData (flushData stC3)).payloadE.GroupEntries, ge.Name ≠ "g1") :=
  ⟨(C3_amended_group_gc stC3 "g1").1 (by decide) (by decide),
   (C3_amended_group_gc (flushData stC3) "g1").2 (by decide)⟩

/-- C4 counterexample: with one login pending and no flush yet,
`Marshall` returns the bare envelope of the last flush (here: none),
not the serialization of the current pending envelope state — the two
byte strings differ. -/
theorem C4_counterexample :
    stC4.ip2uTransactions ≠ [] ∧
    Marshall stC4 =
      "<uid-message><version>2.0</version><type>update</type></uid-message>" ∧
    xmlMarshalPayload (specCurrentEnvelope stC4) =
      "<uid-message><version>2.0</version><type>update</type><payload><login><entry name=\"alice\" ip=\"10.0.0.1\" timeout=\"60\"></entry></login></payload></uid-message>" ∧
    Marshall stC4 ≠ xmlMarshalPayload (specCurrentEnvelope stC4) := by
  decide

/-- C4 amended: `Marshall` serializes the envelope produced by the most
recent flush, not the live pending state: immediately after a flush of
state `st` (whose stored envelope carries the protocol constants, as
every reachable state's does), its output equals the serialization of
the envelope of the state that was pending at that flush. -/
theorem C4_amended_marshall (st : UIDState)
    (h1 : st.payloadE.Version = UIDVERSION) (h2 : st.payloadE.MsgType = UIDTYPE) :
    Marshall (flushData st) = xmlMarshalPayload (specCurrentEnvelope st) := by
  have hpe : (flushData st).payloadE = specCurrentEnvelope st := by
    simp [flushData, specCurrentEnvelope, h1, h2]
  simp [Marshall, hpe]

/-- C4 amended witness: Marshall right after flushing `stC4` yields the
serialization of `stC4`'s pending envelope. -/
theorem C4_amended_marshall_witness :
    Marshall (flushData stC4) = xmlMarshalPayload (specCurrentEnvelope stC4) :=
  C4_amended_marshall stC4 (by decide) (by decide)

/-- C2 counterexample: an interleaving in which the flush task is parked
on the wake signal and a login is pending when `Close` runs.  `Close`'s
explicit `Signal` wakes the parked task, which performs a full
drain/serialize/submit of the pending mutation before observing the quit
channel and terminating — so "no final drain/serialize/submit is
performed before the background tasks terminate" is false for this
state. -/
theorem C2_counterexample :
    c2AtClose.uid.ip2uTransactions ≠ [] ∧
    c2AtClose.pc = FlushPC.parked ∧
    c2Final.pc = FlushPC.done ∧
    c2Final.submissions =
      ["<uid-message><version>2.0</version><type>update</type><payload><login><entry name=\"alice\" ip=\"10.0.0.1\" timeout=\"60\"></entry></login></payload></uid-message>"] ∧
    c2Final.uid.ip2uTransactions = [] := by
  decide

/-- C2 amended: pending mutations at the moment of `Close` are discarded
without a final flush only in interleavings where the flush task is not
parked when `Close` raises its wake signal; whenever the flush task is
parked at that moment (its steady state between cycles), `Close`'s
signal causes exactly one final drain/serialize/submit of the pending
state before the task terminates. -/
theorem C2_amended_close_flush (s : Sys) (h : s.pc = FlushPC.parked) :
    (runSys s closeEvents).pc = FlushPC.done ∧
    (runSys s closeEvents).submissions =
      s.submissions ++ [Marshall (flushData s.uid)] ∧
    (runSys s closeEvents).uid.ip2uTransactions = [] ∧
    (runSys s closeEvents).uid.cumChanges = 0 := by
  simp [closeEvents, runSys, stepEvent, signalFlusher, h, flushData]

/-- C2 amended witness: the Close-while-parked flush at the concrete
interleaving state `c2AtClose`. -/
theorem C2_amended_close_flush_witness :
    (runSys c2AtClose closeEvents).pc = FlushPC.done ∧
    (runSys c2AtClose closeEvents).submissions =
      c2AtClose.submissions ++ [Marshall (flushData c2AtClose.uid)] ∧
    (runSys c2AtClose closeEvents).uid.ip2uTransactions = [] ∧
    (runSys c2AtClose closeEvents).uid.cumChanges = 0 :=
  C2_amended_close_flush c2AtClose (by decide)

/-- C5: the code does not provide signal-before-wait durability.  In the
`c5Trace` interleaving a timer wake signal is raised while the flush
task is busy (mid-cycle, not parked); the signal hits no waiter and is
lost, and the task's next park blocks — with a mutation still pending,
nothing flushed (one earlier submission only), and further scheduling of
the flush task alone (without a new signal) leaving the system
unchanged — instead of returning immediately and flushing. -/
theorem C5_lost_wakeup :
    c5Final.lostSignals = 1 ∧
    c5Final.pc = FlushPC.parked ∧
    c5Final.uid.cumChanges = 1 ∧
    c5Final.uid.ip2uTransactions ≠ [] ∧
    c5Final.submissions.length = 1 ∧
    runSys c5Final [Event.flushTaskStep, Event.flushTaskStep, Event.flushTaskStep] =
      c5Final := by
  decide

end GoPanOsApi
